import Mathlib

/-!
Verification development for the pdit execution backend.

The definitions below are a shallow embedding of the kernel session
orchestration code of the repository, mainly:

- `src/pdit/session.py` (class `Session`): `_parse_statements`,
  `_process_mime_data`, `_process_kernel_message`, `_execute_script_impl`,
  `execute_script`, `cancel_execution`;
- `src/pdit/ipython_executor.py` (class `IPythonExecutor`): `_parse_script`,
  `_process_mime_data`, `_execute_code`, `_has_error`, `execute_script`;
- `src/pdit/server.py`: the execute-message handling and
  `process_execution_queue`.

Modelling conventions:

- Python dicts that serve as MIME bundles are modelled as association lists
  ordered by insertion order; `k in d` and iteration over keys follow that
  order, so `List.find?` models both the membership test and the
  first-matching-key lookup.
- Payload values carried inside MIME bundles and kernel messages are
  modelled as the final strings they render to, so `json.dumps` on such a
  payload is the identity `jsonDumps` here, and the ANSI escape stripping
  performed by `re.sub` is the identity `stripAnsi` on the already plain
  strings of the embedding.  Neither transformation is inspected by any
  claim; only which items are produced, with which type tags, matters.
- The external `ast.parse` splitter is modelled by its output: a list of
  top-level nodes with their line information, or a syntax error record.
  `ast.literal_eval` applied to the source slice of a node is modelled by
  the field `literalEval` of the node (`some s` when it succeeds and
  `str(value)` is `s`, `none` when it raises `ValueError`/`SyntaxError`).
- The kernel process is modelled by an oracle `String → List KernelMsg`
  giving the iopub messages yielded for one `execute(code)` call, in order,
  up to the terminating idle status message (status messages map to no
  output, as in the code).
- Async scheduling: a coroutine runs to completion, or fails at an await
  point after `k` of its events were delivered, or is cancelled — where the
  `CancelledError` can land at an await point after `k ≤ n` events were
  delivered (including `k = n`: after the final event was delivered but
  before the task finished, since the task only finishes after one more
  resumption of the generator) or even before the task's first step, in
  which case the coroutine body never runs and nothing is sent.  The
  `RunOutcome` parameter makes these timings explicit.
-/

/-- One output item, as built by both executors: a `type` tag (stream name,
MIME type, or `error`) and a content string; images coming out of
`IPythonExecutor._process_mime_data` may also carry width and height taken
from the message metadata. -/
structure OutputItem where
  type : String
  content : String
  width : Option String := none
  height : Option String := none
deriving DecidableEq, Repr

/-- MIME metadata of a message, keyed by MIME type: for each type, its
property association list (for example width and height of an image). -/
abbrev MimeMeta := List (String × List (String × String))

/-- A kernel iopub message, as consumed by the executors.  `status` also
stands for any other message type that produces no output. -/
inductive KernelMsg where
  | stream (name text : String)
  | executeResult (data : List (String × String)) (metadata : MimeMeta)
  | displayData (data : List (String × String)) (metadata : MimeMeta)
  | error (traceback : List String)
  | status
deriving DecidableEq, Repr

/-- Modelling convention: MIME payloads are carried as their final string
renderings, so the `json.dumps` applied by `_process_mime_data` to the
`application/json` entry is the identity here. -/
def jsonDumps (s : String) : String := s

/-- Modelling convention: the traceback strings of the embedding are already
free of ANSI escapes, so the `re.sub` of the ANSI pattern is the identity. -/
def stripAnsi (s : String) : String := s

/-- `s.startswith(p)` of Python, on the character lists of the strings. -/
def strStartsWith (s p : String) : Bool := p.data.isPrefixOf s.data

/-- `s.strip()` of Python: drop whitespace from both ends, on the
character lists of the strings. -/
def strTrim (s : String) : String :=
  { data := ((s.data.dropWhile Char.isWhitespace).reverse.dropWhile Char.isWhitespace).reverse }

/-- First value of an association list under a key; models `d[k]` guarded by
`k in d` on a Python dict. -/
def lookupKey (data : List (String × String)) (k : String) : Option String :=
  (data.find? (fun kv => kv.1 == k)).map (fun kv => kv.2)

/-- `not (line_end < from_line or line_start > to_line)`: the line-range
filter predicate shared by `Session._execute_script_impl` and
`IPythonExecutor.execute_script`. -/
def inRange (fromLine toLine lineStart lineEnd : Nat) : Bool :=
  !(lineEnd < fromLine || lineStart > toLine)

namespace Session

/-- One top-level node of the `ast.parse` tree as used by
`Session._parse_statements`: its `lineno`, `end_lineno`, whether it is an
`ast.Expr` whose value is a string `ast.Constant` (markdown detection), the
source slice `lines[lineno - 1 : end_lineno]`, and the modelled result of
`ast.literal_eval` on that slice. -/
structure PyNode where
  lineno : Nat
  endLineno : Nat
  isStringExprConst : Bool
  source : String
  literalEval : Option String
deriving DecidableEq, Repr

/-- A syntax error raised by `ast.parse`: optional `lineno` and message. -/
structure SynErr where
  lineno : Option Nat
  msg : String
deriving DecidableEq, Repr

/-- Result of `ast.parse` on the whole script. -/
inductive ParseOutcome where
  | ok (body : List PyNode)
  | err (e : SynErr)
deriving DecidableEq, Repr

/-- One statement dict yielded by `Session._parse_statements`. -/
structure Stmt where
  nodeIndex : Nat
  lineStart : Nat
  lineEnd : Nat
  code : String
  isMarkdown : Bool
  synErrMsg : Option String
  literalEval : Option String
deriving DecidableEq, Repr

/-- The statement built for node `n` at enumeration index `i`. -/
def mkStmt (i : Nat) (n : PyNode) : Stmt :=
  { nodeIndex := i
    lineStart := n.lineno
    lineEnd := n.endLineno
    code := n.source
    isMarkdown := n.isStringExprConst
    synErrMsg := none
    literalEval := n.literalEval }

/-- `for i, node in enumerate(tree.body)` starting at index `i`. -/
def parseStatementsFrom (i : Nat) : List PyNode → List Stmt
  | [] => []
  | n :: rest => mkStmt i n :: parseStatementsFrom (i + 1) rest

/-- `Session._parse_statements`: on success one statement per top-level
node, enumerated from 0; on a `SyntaxError` a single pseudo-statement at
the error line (`e.lineno or 1`) carrying the message and the whole
script as its code. -/
def parseStatements (script : String) : ParseOutcome → List Stmt
  | .ok body => parseStatementsFrom 0 body
  | .err e =>
      [{ nodeIndex := 0
         lineStart := e.lineno.getD 1
         lineEnd := e.lineno.getD 1
         code := script
         isMarkdown := false
         synErrMsg := some e.msg
         literalEval := none }]

/-- `Session._process_mime_data`: any `image/*` key wins (first in
insertion order), then `text/html`, then `application/json` (serialized
with `json.dumps`), then `text/plain`; otherwise no item. -/
def processMimeData (data : List (String × String)) : Option OutputItem :=
  match data.find? (fun kv => strStartsWith kv.1 "image/") with
  | some kv => some { type := kv.1, content := kv.2 }
  | none =>
    match lookupKey data "text/html" with
    | some v => some { type := "text/html", content := v }
    | none =>
      match lookupKey data "application/json" with
      | some v => some { type := "application/json", content := jsonDumps v }
      | none =>
        match lookupKey data "text/plain" with
        | some v => some { type := "text/plain", content := v }
        | none => none

/-- `Session._process_kernel_message`: streams map to one item per message
(no coalescing), results and display data go through the MIME priority
rule, errors join and strip the traceback, everything else maps to
nothing. -/
def processKernelMessage : KernelMsg → Option OutputItem
  | .stream name text => some { type := name, content := text }
  | .executeResult data _ => processMimeData data
  | .displayData data _ => processMimeData data
  | .error tb => some { type := "error", content := stripAnsi (String.intercalate "\n" tb) }
  | .status => none

/-- The output collected for one kernel-executed statement: every message
of the kernel stream for its code, filtered through
`_process_kernel_message`. -/
def kernelOutput (kernelExec : String → List KernelMsg) (s : Stmt) : List OutputItem :=
  (kernelExec s.code).filterMap processKernelMessage

/-- Output of a markdown statement: `ast.literal_eval` of its code,
stripped, as one `text/markdown` item; an empty list when `literal_eval`
raises. -/
def markdownOutput (s : Stmt) : List OutputItem :=
  match s.literalEval with
  | some v => [{ type := "text/markdown", content := strTrim v }]
  | none => []

end Session

/-- The unit line information sent in the `execution-started` event. -/
structure ExprInfo where
  nodeIndex : Nat
  lineStart : Nat
  lineEnd : Nat
deriving DecidableEq, Repr

/-- A client event sent through `send_fn` by `Session`:
`execution-started`, `expression-done`, `execution-complete`,
`execution-cancelled`, `execution-error`. -/
inductive Event where
  | started (executionId : String) (expressions : List ExprInfo)
  | exprDone (executionId : String) (nodeIndex lineStart lineEnd : Nat)
      (output : List OutputItem) (isInvisible : Bool)
  | complete (executionId : String)
  | cancelled (executionId : String)
  | errorEv (executionId : String) (message : String)
deriving DecidableEq, Repr

/-- A terminal event of an execution stream. -/
def Event.isTerminal : Event → Bool
  | .complete _ => true
  | .cancelled _ => true
  | .errorEv _ _ => true
  | _ => false

namespace Session

/-- The `expression-done` event emitted for one statement by
`Session._execute_script_impl`: a syntax-error statement reports its error
with `isInvisible = False`; a markdown statement reports its literal value
with `isInvisible = False`; any other statement is executed through the
kernel and reports `isInvisible = (len(output) == 0)`. -/
def stmtEvent (kernelExec : String → List KernelMsg) (execId : String) (s : Stmt) : Event :=
  match s.synErrMsg with
  | some m =>
      .exprDone execId s.nodeIndex s.lineStart s.lineEnd
        [{ type := "error", content := m }] false
  | none =>
      if s.isMarkdown then
        .exprDone execId s.nodeIndex s.lineStart s.lineEnd (markdownOutput s) false
      else
        .exprDone execId s.nodeIndex s.lineStart s.lineEnd
          (kernelOutput kernelExec s) (kernelOutput kernelExec s).isEmpty

/-- Statements retained after the optional line-range filter of
`Session._execute_script_impl` (keep any statement overlapping the
range). -/
def filteredStatements (script : String) (parse : ParseOutcome)
    (lineRange : Option (Nat × Nat)) : List Stmt :=
  let all := parseStatements script parse
  match lineRange with
  | some (f, t) => all.filter (fun s => inRange f t s.lineStart s.lineEnd)
  | none => all

/-- The `execution-started` event of `Session._execute_script_impl`,
listing the retained statements that are not syntax-error
pseudo-statements. -/
def startedEvent (script : String) (parse : ParseOutcome) (execId : String)
    (lineRange : Option (Nat × Nat)) : Event :=
  .started execId
    ((filteredStatements script parse lineRange).filterMap fun s =>
      if s.synErrMsg.isSome then none
      else some { nodeIndex := s.nodeIndex, lineStart := s.lineStart, lineEnd := s.lineEnd })

/-- All events yielded by `Session._execute_script_impl` before the final
`execution-complete`: the `execution-started` event and one
`expression-done` per retained statement. -/
def implInit (script : String) (parse : ParseOutcome)
    (kernelExec : String → List KernelMsg) (execId : String)
    (lineRange : Option (Nat × Nat)) : List Event :=
  startedEvent script parse execId lineRange
    :: (filteredStatements script parse lineRange).map (stmtEvent kernelExec execId)

/-- `Session._execute_script_impl`: the full event sequence yielded for one
call — the `execution-started` event listing the retained non-syntax-error
statements, one `expression-done` per retained statement, and the final
`execution-complete`. -/
def executeScriptImpl (script : String) (parse : ParseOutcome)
    (kernelExec : String → List KernelMsg) (execId : String)
    (lineRange : Option (Nat × Nat)) : List Event :=
  implInit script parse kernelExec execId lineRange ++ [.complete execId]

/-- The codes sent to `kernel.execute` by one statement: syntax-error and
markdown statements send nothing (markdown statements never reach the
kernel in `Session`, even when `literal_eval` fails), all others send
their code. -/
def stmtKernelCalls (s : Stmt) : List String :=
  if s.synErrMsg.isNone && !s.isMarkdown then [s.code] else []

/-- All codes sent to `kernel.execute` during one
`Session._execute_script_impl` run, in order. -/
def scriptKernelCalls (script : String) (parse : ParseOutcome)
    (lineRange : Option (Nat × Nat)) : List String :=
  (filteredStatements script parse lineRange).flatMap stmtKernelCalls

/-- How one `run()` task of `Session.execute_script` ends: it runs to
completion; or it fails at an await point after `k` of its events were
delivered (an exception can only arise from the generator or from a
`send_fn` call whose event was then not delivered, so `k` is below the
event count); or the `CancelledError` lands at an await point after `k`
events were delivered — including `k = n`, the timing in which the cancel
arrives after the final `execution-complete` was delivered but before the
task finishes, since the task still has to resume the exhausted generator
once more; or the task is cancelled before its first step, in which case
the coroutine body (and its `try`/`except`) never runs. -/
inductive RunOutcome where
  | normal
  | cancelledAt (k : Nat)
  | cancelledBeforeStart
  | erroredAt (k : Nat) (msg : String)
deriving DecidableEq, Repr

/-- The outcomes that end the task without a late or pre-start
cancellation: a normal run, or a cancellation or failure at an await
point while events of the stream were still undelivered.  A cancellation
landing after the final event was already delivered (`cancelledAt n`) and
a cancellation before the task's first step are outside this predicate —
those timings make the code deliver two, respectively zero, terminal
events. -/
def RunOutcome.interruptsEarly : RunOutcome → Nat → Bool
  | .normal, _ => true
  | .cancelledAt k, n => decide (k < n)
  | .cancelledBeforeStart, _ => false
  | .erroredAt k _, n => decide (k < n)

/-- The events delivered through `send_fn` by one `Session.execute_script`
call: on normal completion all events of `_execute_script_impl`; on
`asyncio.CancelledError` thrown into a started task the delivered prefix
followed by `execution-cancelled` (for `k` equal to the event count, the
whole stream including `execution-complete` was already delivered and the
handler still sends `execution-cancelled` after it); on a cancel that
lands before the task's first step nothing at all; on any other exception
the delivered prefix followed by `execution-error`. -/
def executeScript (script : String) (parse : ParseOutcome)
    (kernelExec : String → List KernelMsg) (execId : String)
    (lineRange : Option (Nat × Nat)) : RunOutcome → List Event
  | .normal => executeScriptImpl script parse kernelExec execId lineRange
  | .cancelledAt k =>
      (executeScriptImpl script parse kernelExec execId lineRange).take k ++ [.cancelled execId]
  | .cancelledBeforeStart => []
  | .erroredAt k m =>
      (executeScriptImpl script parse kernelExec execId lineRange).take k ++ [.errorEv execId m]

/-- The state of one background `run()` task: its execution id, the events
it has delivered so far, and whether it is done. -/
structure Task where
  execId : String
  delivered : List Event
  done : Bool
deriving DecidableEq, Repr

/-- Effect of `Session.cancel_execution` on the current task: a task that
is not done is cancelled, so its `except asyncio.CancelledError` handler
appends the `execution-cancelled` event to its delivered stream and the
task ends. -/
def cancelTask (t : Task) : Task :=
  if t.done then t
  else { t with delivered := t.delivered ++ [.cancelled t.execId], done := true }

/-- `Session.execute_script` task management: the call first runs
`cancel_execution()` on the current task, then immediately creates a new
task for the incoming execution.  Returns the state of the previous task
after the call and the freshly created task. -/
def executeScriptCall (current : Option Task) (newId : String) :
    Option Task × Task :=
  (current.map cancelTask, { execId := newId, delivered := [], done := false })

end Session

namespace IPythonExecutor

/-- One top-level node of the `ast.parse` tree as used by
`IPythonExecutor._parse_script`: line information, decorator line numbers
(non-empty only for decorated function and class definitions), the node
kind flags used by the parser, the source slice for the computed line
range, and the modelled `ast.literal_eval` result on that slice. -/
structure PyAstNode where
  lineno : Nat
  endLineno : Option Nat
  decoratorLinenos : List Nat
  isDefLike : Bool
  isExpr : Bool
  isConstStr : Bool
  isJoinedStr : Bool
  source : String
  literalEval : Option String
deriving DecidableEq, Repr

/-- `min(dec.lineno for dec in node.decorator_list)` for a non-empty list
of decorator line numbers. -/
def minLineno : List Nat → Nat
  | [] => 0
  | x :: xs => xs.foldl Nat.min x

/-- One statement dict built by `IPythonExecutor._parse_script`. -/
structure Stmt where
  lineStart : Nat
  lineEnd : Nat
  source : String
  isMarkdownCell : Bool
  isFStringMarkdown : Bool
  literalEval : Option String
deriving DecidableEq, Repr

/-- `IPythonExecutor._parse_script`, applied to the parsed body: the line
start is pulled back to the first decorator for decorated definitions, the
line end falls back to `lineno` when `end_lineno` is missing, markdown
cells are top-level string-constant expressions, and f-string markdown
cells are top-level `JoinedStr` expressions. -/
def parseScript (body : List PyAstNode) : List Stmt :=
  body.map fun n =>
    let lineStart :=
      if n.isDefLike && !n.decoratorLinenos.isEmpty then minLineno n.decoratorLinenos
      else n.lineno
    { lineStart := lineStart
      lineEnd := n.endLineno.getD n.lineno
      source := n.source
      isMarkdownCell := n.isExpr && n.isConstStr
      isFStringMarkdown := n.isExpr && n.isJoinedStr
      literalEval := n.literalEval }

/-- A syntax error raised by `ast.parse` inside
`IPythonExecutor.execute_script`: optional `lineno` and the text printed
by `traceback.print_exc`. -/
structure SynErr where
  lineno : Option Nat
  tb : String
deriving DecidableEq, Repr

/-- Result of `ast.parse` on the whole script. -/
inductive ParseOutcome where
  | ok (body : List PyAstNode)
  | err (e : SynErr)
deriving DecidableEq, Repr

/-- `IPythonExecutor._process_mime_data`: any `image/*` key wins (first in
insertion order, with width and height pulled from the metadata of that
type), then `text/html`, then `text/markdown`, then `application/json`
(through `json.dumps`), then `text/plain`; at most one item. -/
def processMimeData (data : List (String × String)) (metadata : MimeMeta) :
    List OutputItem :=
  match data.find? (fun kv => strStartsWith kv.1 "image/") with
  | some kv =>
      let props := ((metadata.find? (fun m => m.1 == kv.1)).map (fun m => m.2)).getD []
      [{ type := kv.1, content := kv.2
         width := lookupKey props "width", height := lookupKey props "height" }]
  | none =>
    match lookupKey data "text/html" with
    | some v => [{ type := "text/html", content := v }]
    | none =>
      match lookupKey data "text/markdown" with
      | some v => [{ type := "text/markdown", content := v }]
      | none =>
        match lookupKey data "application/json" with
        | some v => [{ type := "application/json", content := jsonDumps v }]
        | none =>
          match lookupKey data "text/plain" with
          | some v => [{ type := "text/plain", content := v }]
          | none => []

/-- One step of the message loop of `IPythonExecutor._execute_code`: a
stream message is merged into the last output item when that item has the
same stream name, and appended otherwise; results and display data extend
the output through the MIME priority rule; an error appends one stripped
traceback item; status messages produce nothing. -/
def processMsg (output : List OutputItem) : KernelMsg → List OutputItem
  | .stream name text =>
      match output.getLast? with
      | some last =>
          if last.type == name then
            output.dropLast ++ [{ type := name, content := last.content ++ text }]
          else
            output ++ [{ type := name, content := text }]
      | none => output ++ [{ type := name, content := text }]
  | .executeResult data metadata => output ++ processMimeData data metadata
  | .displayData data metadata => output ++ processMimeData data metadata
  | .error tb => output ++ [{ type := "error", content := stripAnsi (String.intercalate "\n" tb) }]
  | .status => output

/-- `IPythonExecutor._execute_code`: fold the kernel messages of one
`execute(code)` call into the collected output list. -/
def executeCode (kernelExec : String → List KernelMsg) (code : String) : List OutputItem :=
  (kernelExec code).foldl processMsg []

/-- `IPythonExecutor._has_error`. -/
def hasError (output : List OutputItem) : Bool :=
  output.any (fun item => item.type == "error")

/-- A single-quote character, used to build the f-string wrapper code. -/
def sq : String := (Char.ofNat 39).toString

/-- The wrapper code built for f-string markdown cells. -/
def fstringWrapper (source : String) : String :=
  "__import__(" ++ sq ++ "IPython" ++ sq ++ ").display.Markdown(" ++ source ++ ")"

/-- The output collected for one statement by
`IPythonExecutor.execute_script`: a markdown cell whose source
literal-evaluates bypasses the kernel and renders its stripped string
value; a markdown cell whose `literal_eval` raises falls back to
executing the source in the kernel; an f-string markdown cell executes
the `Markdown(...)` wrapper; everything else executes its source. -/
def unitOutput (kernelExec : String → List KernelMsg) (s : Stmt) : List OutputItem :=
  if s.isMarkdownCell then
    match s.literalEval with
    | some v => [{ type := "text/markdown", content := strTrim v }]
    | none => executeCode kernelExec s.source
  else if s.isFStringMarkdown then
    executeCode kernelExec (fstringWrapper s.source)
  else
    executeCode kernelExec s.source

/-- The codes sent to the kernel for one statement. -/
def unitCalls (s : Stmt) : List String :=
  if s.isMarkdownCell then
    match s.literalEval with
    | some _ => []
    | none => [s.source]
  else if s.isFStringMarkdown then [fstringWrapper s.source]
  else [s.source]

/-- An event yielded by `IPythonExecutor.execute_script`: the initial
expression list, then one result dict per executed statement. -/
inductive IEvent where
  | expressions (exprs : List (Nat × Nat))
  | result (lineStart lineEnd : Nat) (output : List OutputItem) (isInvisible : Bool)
deriving DecidableEq, Repr

/-- The result event of one statement. -/
def resultEvent (kernelExec : String → List KernelMsg) (s : Stmt) : IEvent :=
  .result s.lineStart s.lineEnd (unitOutput kernelExec s)
    (unitOutput kernelExec s).isEmpty

/-- The statement loop of `IPythonExecutor.execute_script`: each statement
yields its result, and the loop breaks right after a statement whose
output contains an error (halt on error). -/
def execUnits (kernelExec : String → List KernelMsg) : List Stmt → List IEvent
  | [] => []
  | s :: rest =>
      if hasError (unitOutput kernelExec s) then [resultEvent kernelExec s]
      else resultEvent kernelExec s :: execUnits kernelExec rest

/-- The codes sent to the kernel by the statement loop, halting after the
first failing statement. -/
def execCalls (kernelExec : String → List KernelMsg) : List Stmt → List String
  | [] => []
  | s :: rest =>
      if hasError (unitOutput kernelExec s) then unitCalls s
      else unitCalls s ++ execCalls kernelExec rest

/-- Statements retained after the optional line-range filter of
`IPythonExecutor.execute_script`. -/
def filteredStatements (parse : List PyAstNode) (lineRange : Option (Nat × Nat)) : List Stmt :=
  let stmts := parseScript parse
  match lineRange with
  | some (f, t) => stmts.filter (fun s => inRange f t s.lineStart s.lineEnd)
  | none => stmts

/-- `IPythonExecutor.execute_script`: on a syntax error the expressions
event for the failing line followed by one error result there, with no
statement executed; otherwise the expressions event for the retained
statements followed by the statement loop. -/
def executeScript (parse : ParseOutcome) (kernelExec : String → List KernelMsg)
    (lineRange : Option (Nat × Nat)) : List IEvent :=
  match parse with
  | .err e =>
      let l := e.lineno.getD 1
      [.expressions [(l, l)],
       .result l l [{ type := "error", content := e.tb }] false]
  | .ok body =>
      let stmts := filteredStatements body lineRange
      .expressions (stmts.map fun s => (s.lineStart, s.lineEnd))
        :: execUnits kernelExec stmts

/-- All codes sent to the kernel during one
`IPythonExecutor.execute_script` call. -/
def scriptCalls (parse : ParseOutcome) (kernelExec : String → List KernelMsg)
    (lineRange : Option (Nat × Nat)) : List String :=
  match parse with
  | .err _ => []
  | .ok body => execCalls kernelExec (filteredStatements body lineRange)

end IPythonExecutor

namespace Server

/-- One queued execution request of the `server.py` WebSocket path,
carrying the events its execution will deliver. -/
structure ExecRequest where
  execId : String
  events : List Event
deriving DecidableEq, Repr

/-- Handling of an `execute` message in the `server.py` message loop: the
request is appended to the session execution queue
(`await session.execution_queue.put(...)`), FIFO, without touching the
running execution. -/
def handleExecuteMsg (queue : List ExecRequest) (r : ExecRequest) : List ExecRequest :=
  queue ++ [r]

/-- `process_execution_queue`: requests are taken from the queue one at a
time and each one is executed to completion (`await task`) before the next
is started; the delivered stream tags every event with the execution id of
its request. -/
def processQueueEvents : List ExecRequest → List (String × Event)
  | [] => []
  | r :: rest => r.events.map (fun e => (r.execId, e)) ++ processQueueEvents rest

end Server

/-- The node index carried by an `expression-done` event. -/
def doneIndex? : Event → Option Nat
  | .exprDone _ i _ _ _ _ => some i
  | _ => none

/-- The node indices of the `expression-done` events of a stream, in
emission order. -/
def doneIndices (evs : List Event) : List Nat :=
  evs.filterMap doneIndex?

/-- The unit list of the leading `execution-started` event of a stream. -/
def startedUnits (evs : List Event) : List ExprInfo :=
  match evs.head? with
  | some (.started _ info) => info
  | _ => []

/-- The parsed body is in source order: both the start and the end line
numbers are nondecreasing along the body, as `ast.parse` produces them
for a real script. -/
def Session.linesMono (body : List Session.PyNode) : Prop :=
  List.Pairwise (fun a b => a.lineno ≤ b.lineno ∧ a.endLineno ≤ b.endLineno) body

/-- Stated from the claim wording of C6: the MIME type selected by the
fixed priority rule image > html > markdown > json > plain text. -/
def specMimeChoiceWithMarkdown (data : List (String × String)) : Option String :=
  match data.find? (fun kv => strStartsWith kv.1 "image/") with
  | some kv => some kv.1
  | none =>
    match lookupKey data "text/html" with
    | some _ => some "text/html"
    | none =>
      match lookupKey data "text/markdown" with
      | some _ => some "text/markdown"
      | none =>
        match lookupKey data "application/json" with
        | some _ => some "application/json"
        | none =>
          match lookupKey data "text/plain" with
          | some _ => some "text/plain"
          | none => none

/-- The priority rule the amended C6 states for
`Session._process_mime_data`: image > html > json > plain text, with no
markdown rank. -/
def specMimeChoiceNoMarkdown (data : List (String × String)) : Option String :=
  match data.find? (fun kv => strStartsWith kv.1 "image/") with
  | some kv => some kv.1
  | none =>
    match lookupKey data "text/html" with
    | some _ => some "text/html"
    | none =>
      match lookupKey data "application/json" with
      | some _ => some "application/json"
      | none =>
        match lookupKey data "text/plain" with
        | some _ => some "text/plain"
        | none => none

/-- The parsed body of the script of the halt-on-error scenario,
`"1\n1/0\n2"`, for `IPythonExecutor._parse_script`: three plain
expression statements on lines 1, 2, 3. -/
def haltBody : List IPythonExecutor.PyAstNode :=
  [{ lineno := 1, endLineno := some 1, decoratorLinenos := [], isDefLike := false,
     isExpr := true, isConstStr := false, isJoinedStr := false, source := "1", literalEval := none },
   { lineno := 2, endLineno := some 2, decoratorLinenos := [], isDefLike := false,
     isExpr := true, isConstStr := false, isJoinedStr := false, source := "1/0", literalEval := none },
   { lineno := 3, endLineno := some 3, decoratorLinenos := [], isDefLike := false,
     isExpr := true, isConstStr := false, isJoinedStr := false, source := "2", literalEval := none }]

/-- The same body for `Session._parse_statements`. -/
def haltSessBody : List Session.PyNode :=
  [{ lineno := 1, endLineno := 1, isStringExprConst := false, source := "1", literalEval := none },
   { lineno := 2, endLineno := 2, isStringExprConst := false, source := "1/0", literalEval := none },
   { lineno := 3, endLineno := 3, isStringExprConst := false, source := "2", literalEval := none }]

/-- The kernel behavior for that script: `1` and `2` produce a plain
result, `1/0` produces an error message. -/
def haltOracle : String → List KernelMsg := fun code =>
  if code == "1" then [.executeResult [("text/plain", "1")] [], .status]
  else if code == "1/0" then [.error ["ZeroDivisionError: division by zero"], .status]
  else if code == "2" then [.executeResult [("text/plain", "2")] [], .status]
  else []

/-- A task in flight: it has delivered its started event and is not done. -/
def runningTask : Session.Task :=
  { execId := "e1", delivered := [Event.started "e1" []], done := false }

/-- The parsed body of the two-line script `"1\n2"` for
`Session._parse_statements`. -/
def twoLineBody : List Session.PyNode :=
  [{ lineno := 1, endLineno := 1, isStringExprConst := false, source := "1", literalEval := none },
   { lineno := 2, endLineno := 2, isStringExprConst := false, source := "2", literalEval := none }]

/-- A kernel that answers any code with two consecutive stdout stream
messages, as a unit running two prints does. -/
def twoPrintOracle : String → List KernelMsg := fun _ =>
  [.stream "stdout" "a\n", .stream "stdout" "b\n", .status]

/-- A markdown-literal statement whose source slice does not
literal-evaluate (several statements share its line, as in the script
`x = 1; "md";`), for `IPythonExecutor.execute_script`. -/
def mdFallback : IPythonExecutor.Stmt :=
  { lineStart := 1, lineEnd := 1, source := "x = 1; \"md\";", isMarkdownCell := true,
    isFStringMarkdown := false, literalEval := none }

/-- The parsed body containing only the markdown-literal expression of the
script `x = 1; "md";` (the assignment node is left out to keep the
example to one unit; the string expression node alone already has the
whole line as its source slice). -/
def mdFallbackBody : List IPythonExecutor.PyAstNode :=
  [{ lineno := 1, endLineno := some 1, decoratorLinenos := [], isDefLike := false,
     isExpr := true, isConstStr := true, isJoinedStr := false,
     source := "x = 1; \"md\";", literalEval := none }]

/-- A kernel that answers any code with no output at all (the trailing
semicolon suppresses the display of the expression value). -/
def silentOracle : String → List KernelMsg := fun _ => [.status]

namespace Session

theorem stmtEvent_not_terminal (ke : String → List KernelMsg) (eid : String) (s : Stmt) :
    (stmtEvent ke eid s).isTerminal = false := by
  unfold stmtEvent
  cases s.synErrMsg with
  | none =>
      by_cases h : s.isMarkdown <;> simp [h, Event.isTerminal]
  | some m => rfl

theorem implInit_not_terminal (script : String) (parse : ParseOutcome)
    (ke : String → List KernelMsg) (eid : String) (lr : Option (Nat × Nat)) :
    ∀ e ∈ implInit script parse ke eid lr, e.isTerminal = false := by
  intro e he
  rcases List.mem_cons.mp he with rfl | hmem
  · rfl
  · rcases List.mem_map.mp hmem with ⟨s, _, rfl⟩
    exact stmtEvent_not_terminal ke eid s

theorem countP_terminal_implInit (script : String) (parse : ParseOutcome)
    (ke : String → List KernelMsg) (eid : String) (lr : Option (Nat × Nat)) :
    (implInit script parse ke eid lr).countP Event.isTerminal = 0 := by
  refine List.countP_eq_zero.mpr ?_
  intro e he
  simp [implInit_not_terminal script parse ke eid lr e he]

theorem countP_terminal_take (script : String) (parse : ParseOutcome)
    (ke : String → List KernelMsg) (eid : String) (lr : Option (Nat × Nat)) (k : Nat) :
    ((implInit script parse ke eid lr).take k).countP Event.isTerminal = 0 := by
  refine List.countP_eq_zero.mpr ?_
  intro e he
  have hmem : e ∈ implInit script parse ke eid lr := List.take_subset _ _ he
  simp [implInit_not_terminal script parse ke eid lr e hmem]

end Session

/-- Counterexample for C1: for a concrete one-statement script, a cancel
that lands after the final `execution-complete` was delivered but before
the task finishes makes the `CancelledError` handler send
`execution-cancelled` as a second terminal event, and a cancel landing
before the task's first step delivers no event at all — so not every
call to `Session.execute_script` delivers exactly one terminal event. -/
theorem C1_counterexample :
    Session.executeScript "x" (.ok [⟨1, 1, false, "x", none⟩])
        (fun _ => [.status]) "e" none (.cancelledAt 3) =
      [.started "e" [{ nodeIndex := 0, lineStart := 1, lineEnd := 1 }],
       .exprDone "e" 0 1 1 [] true,
       .complete "e",
       .cancelled "e"] ∧
    (Session.executeScript "x" (.ok [⟨1, 1, false, "x", none⟩])
        (fun _ => [.status]) "e" none (.cancelledAt 3)).countP Event.isTerminal = 2 ∧
    (Session.executeScript "x" (.ok [⟨1, 1, false, "x", none⟩])
        (fun _ => [.status]) "e" none .cancelledBeforeStart).countP Event.isTerminal = 0 := by
  decide

/-- C1 (amended): a `Session.execute_script` call that completes normally,
raises, or is cancelled while events of its stream were still undelivered
sends exactly one terminal event through `send_fn`; but a cancellation
that lands after the final `execution-complete` was delivered and before
the task finishes makes the handler send `execution-cancelled` as a
second terminal event, and a task cancelled before its first step sends
no event at all, so the execution is dropped silently. -/
theorem C1_terminal_event_accounting (script : String) (parse : Session.ParseOutcome)
    (ke : String → List KernelMsg) (eid : String) (lr : Option (Nat × Nat))
    (oc : Session.RunOutcome)
    (h : oc.interruptsEarly (Session.executeScriptImpl script parse ke eid lr).length = true) :
    (Session.executeScript script parse ke eid lr oc).countP Event.isTerminal = 1 ∧
    (Session.executeScript script parse ke eid lr
        (.cancelledAt (Session.executeScriptImpl script parse ke eid lr).length)).countP
      Event.isTerminal = 2 ∧
    (Session.executeScript script parse ke eid lr .cancelledBeforeStart).countP
      Event.isTerminal = 0 := by
  refine ⟨?_, ?_, rfl⟩
  · cases oc with
    | normal =>
        simp [Session.executeScript, Session.executeScriptImpl, List.countP_append,
          Session.countP_terminal_implInit, List.countP_cons, Event.isTerminal]
    | cancelledAt k =>
        have hk : k < (Session.executeScriptImpl script parse ke eid lr).length :=
          of_decide_eq_true h
        have hk' : k ≤ (Session.implInit script parse ke eid lr).length := by
          have : (Session.executeScriptImpl script parse ke eid lr).length =
              (Session.implInit script parse ke eid lr).length + 1 := by
            simp [Session.executeScriptImpl]
          omega
        have htake : (Session.executeScriptImpl script parse ke eid lr).take k =
            (Session.implInit script parse ke eid lr).take k := by
          simp [Session.executeScriptImpl, List.take_append_eq_append_take,
            Nat.sub_eq_zero_of_le hk']
        simp [Session.executeScript, htake, List.countP_append,
          Session.countP_terminal_take, List.countP_cons, Event.isTerminal]
    | cancelledBeforeStart => simp [Session.RunOutcome.interruptsEarly] at h
    | erroredAt k m =>
        have hk : k < (Session.executeScriptImpl script parse ke eid lr).length :=
          of_decide_eq_true h
        have hk' : k ≤ (Session.implInit script parse ke eid lr).length := by
          have : (Session.executeScriptImpl script parse ke eid lr).length =
              (Session.implInit script parse ke eid lr).length + 1 := by
            simp [Session.executeScriptImpl]
          omega
        have htake : (Session.executeScriptImpl script parse ke eid lr).take k =
            (Session.implInit script parse ke eid lr).take k := by
          simp [Session.executeScriptImpl, List.take_append_eq_append_take,
            Nat.sub_eq_zero_of_le hk']
        simp [Session.executeScript, htake, List.countP_append,
          Session.countP_terminal_take, List.countP_cons, Event.isTerminal]
  · rw [Session.executeScript, List.take_length, Session.executeScriptImpl,
      List.countP_append, List.countP_append]
    simp [Session.countP_terminal_implInit, List.countP_cons, Event.isTerminal]

/-- Witness for C1 (amended): the one-statement script, cancelled after
one delivered event: one terminal event for that timing, two for the
post-`Complete` cancel, zero for the pre-start cancel. -/
theorem C1_terminal_event_accounting_witness :
    (Session.executeScript "x" (.ok [⟨1, 1, false, "x", none⟩])
        (fun _ => [.status]) "e" none (.cancelledAt 1)).countP Event.isTerminal = 1 ∧
    (Session.executeScript "x" (.ok [⟨1, 1, false, "x", none⟩])
        (fun _ => [.status]) "e" none
        (.cancelledAt (Session.executeScriptImpl "x" (.ok [⟨1, 1, false, "x", none⟩])
          (fun _ => [.status]) "e" none).length)).countP Event.isTerminal = 2 ∧
    (Session.executeScript "x" (.ok [⟨1, 1, false, "x", none⟩])
        (fun _ => [.status]) "e" none .cancelledBeforeStart).countP Event.isTerminal = 0 :=
  C1_terminal_event_accounting "x" (.ok [⟨1, 1, false, "x", none⟩])
    (fun _ => [.status]) "e" none (.cancelledAt 1) (by decide)

/-- Counterexample for C2: for the script `"1\n1/0\n2"` the
`IPythonExecutor` event stream is exactly the expressions event plus the
two unit results — it contains no `Cancelled` event listing the remaining
unit and no terminal marker, the stream simply ends after the failing
unit; and the `Session` engine does not halt at all: it sends the
remaining unit `2` to the kernel. -/
theorem C2_counterexample :
    IPythonExecutor.executeScript (.ok haltBody) haltOracle none =
      [.expressions [(1, 1), (2, 2), (3, 3)],
       .result 1 1 [{ type := "text/plain", content := "1" }] false,
       .result 2 2 [{ type := "error", content := "ZeroDivisionError: division by zero" }] false] ∧
    Session.scriptKernelCalls "1\n1/0\n2" (.ok haltSessBody) none = ["1", "1/0", "2"] := by
  decide

/-- C2 (amended): under the halt-on-error behavior of
`IPythonExecutor.execute_script`, when a unit's execution produces an
error output the engine emits the `UnitResult` for the failing unit and
then executes no further unit of that script: the event stream for the
statements after the failing one is empty and no code after the failing
unit's is sent to the kernel.  No `Cancelled` event listing the remaining
units and no terminal marker are emitted — the stream ends right after
the failing unit's result.  (The `Session` engine of `session.py` instead
continues executing the remaining units, as the counterexample shows.) -/
theorem C2_halt_stops_after_error (ke : String → List KernelMsg)
    (pre : List IPythonExecutor.Stmt) (s : IPythonExecutor.Stmt)
    (rest : List IPythonExecutor.Stmt)
    (hpre : ∀ u ∈ pre, IPythonExecutor.hasError (IPythonExecutor.unitOutput ke u) = false)
    (herr : IPythonExecutor.hasError (IPythonExecutor.unitOutput ke s) = true) :
    IPythonExecutor.execUnits ke (pre ++ s :: rest) =
      pre.map (IPythonExecutor.resultEvent ke) ++ [IPythonExecutor.resultEvent ke s] ∧
    IPythonExecutor.execCalls ke (pre ++ s :: rest) =
      pre.flatMap IPythonExecutor.unitCalls ++ IPythonExecutor.unitCalls s := by
  induction pre with
  | nil =>
      constructor
      · simp [IPythonExecutor.execUnits, herr]
      · simp [IPythonExecutor.execCalls, herr]
  | cons u pre ih =>
      have hu : IPythonExecutor.hasError (IPythonExecutor.unitOutput ke u) = false :=
        hpre u (List.mem_cons_self u pre)
      have ih' := ih (fun v hv => hpre v (List.mem_cons_of_mem u hv))
      constructor
      · simp [IPythonExecutor.execUnits, hu, ih'.1]
      · simp [IPythonExecutor.execCalls, hu, ih'.2]

/-- Witness for C2 (amended): the halt-on-error scenario script, with the
failing unit in the middle. -/
theorem C2_halt_stops_after_error_witness :
    IPythonExecutor.execUnits haltOracle
        ([IPythonExecutor.Stmt.mk 1 1 "1" false false none] ++
          IPythonExecutor.Stmt.mk 2 2 "1/0" false false none ::
          [IPythonExecutor.Stmt.mk 3 3 "2" false false none]) =
      [IPythonExecutor.Stmt.mk 1 1 "1" false false none].map
          (IPythonExecutor.resultEvent haltOracle) ++
        [IPythonExecutor.resultEvent haltOracle (IPythonExecutor.Stmt.mk 2 2 "1/0" false false none)] ∧
    IPythonExecutor.execCalls haltOracle
        ([IPythonExecutor.Stmt.mk 1 1 "1" false false none] ++
          IPythonExecutor.Stmt.mk 2 2 "1/0" false false none ::
          [IPythonExecutor.Stmt.mk 3 3 "2" false false none]) =
      [IPythonExecutor.Stmt.mk 1 1 "1" false false none].flatMap IPythonExecutor.unitCalls ++
        IPythonExecutor.unitCalls (IPythonExecutor.Stmt.mk 2 2 "1/0" false false none) :=
  C2_halt_stops_after_error haltOracle
    [IPythonExecutor.Stmt.mk 1 1 "1" false false none]
    (IPythonExecutor.Stmt.mk 2 2 "1/0" false false none)
    [IPythonExecutor.Stmt.mk 3 3 "2" false false none]
    (by decide) (by decide)

/-- Counterexample for C3: a `Session.execute_script` call arriving while
a task is in flight is neither answered with a `Busy` event nor queued —
it cancels the in-flight task (whose stream is then finalized with
`execution-cancelled`) and starts the new execution immediately, so the
new call does abort the in-flight execution. -/
theorem C3_counterexample :
    (Session.executeScriptCall (some runningTask) "e2").1 =
      some { execId := "e1",
             delivered := [Event.started "e1" [], Event.cancelled "e1"],
             done := true } ∧
    (Session.executeScriptCall (some runningTask) "e2").1 ≠ some runningTask ∧
    (Session.executeScriptCall (some runningTask) "e2").2 =
      { execId := "e2", delivered := [], done := false } := by
  decide

/-- C3 (amended): the `server.py` WebSocket path implements the queueing
policy — an `execute` message arriving while an execution is running is
appended FIFO to the session execution queue and its events are delivered
only after every event of the previously queued executions, so the kernel
messages of two scripts are never interleaved; `Session.execute_script`
of `session.py` implements neither busy-rejection nor queueing: it
cancels the in-flight execution (which then emits `execution-cancelled`)
and starts the new call immediately. -/
theorem C3_policies (q : List Server.ExecRequest) (r : Server.ExecRequest)
    (q2 : List Server.ExecRequest) (eid newId : String) (delivered : List Event) :
    Server.handleExecuteMsg q r = q ++ [r] ∧
    Server.processQueueEvents (q ++ q2) =
      Server.processQueueEvents q ++ Server.processQueueEvents q2 ∧
    Server.processQueueEvents (Server.handleExecuteMsg q r) =
      Server.processQueueEvents q ++ r.events.map (fun e => (r.execId, e)) ∧
    Session.executeScriptCall (some { execId := eid, delivered := delivered, done := false }) newId =
      (some { execId := eid, delivered := delivered ++ [Event.cancelled eid], done := true },
       { execId := newId, delivered := [], done := false }) := by
  have happ : ∀ (a b : List Server.ExecRequest),
      Server.processQueueEvents (a ++ b) =
        Server.processQueueEvents a ++ Server.processQueueEvents b := by
    intro a b
    induction a with
    | nil => simp [Server.processQueueEvents]
    | cons x xs ih => simp [Server.processQueueEvents, ih]
  refine ⟨rfl, happ q q2, ?_, ?_⟩
  · simp [Server.handleExecuteMsg, happ, Server.processQueueEvents]
  · simp [Session.executeScriptCall, Session.cancelTask]

namespace Session

theorem inRange_iff (f t ls le : Nat) : inRange f t ls le = true ↔ f ≤ le ∧ ls ≤ t := by
  simp [inRange]

theorem doneIndex_stmtEvent (ke : String → List KernelMsg) (eid : String) (s : Stmt) :
    doneIndex? (stmtEvent ke eid s) = some s.nodeIndex := by
  unfold stmtEvent
  cases s.synErrMsg with
  | none => by_cases h : s.isMarkdown <;> simp [h, doneIndex?]
  | some m => rfl

theorem doneIndices_impl (script : String) (parse : ParseOutcome)
    (ke : String → List KernelMsg) (eid : String) (lr : Option (Nat × Nat)) :
    doneIndices (executeScriptImpl script parse ke eid lr) =
      (filteredStatements script parse lr).map Stmt.nodeIndex := by
  unfold executeScriptImpl implInit doneIndices
  rw [List.filterMap_append, List.filterMap_cons, List.filterMap_map]
  have h1 : doneIndex? (startedEvent script parse eid lr) = none := rfl
  have hcomp : (doneIndex? ∘ stmtEvent ke eid) = some ∘ Stmt.nodeIndex := by
    funext s
    simp [Function.comp, doneIndex_stmtEvent]
  rw [h1, hcomp, List.filterMap_eq_map]
  simp [List.filterMap_cons, doneIndex?]

theorem startedUnits_impl (script : String) (parse : ParseOutcome)
    (ke : String → List KernelMsg) (eid : String) (lr : Option (Nat × Nat)) :
    startedUnits (executeScriptImpl script parse ke eid lr) =
      (filteredStatements script parse lr).filterMap (fun s =>
        if s.synErrMsg.isSome then none
        else some { nodeIndex := s.nodeIndex, lineStart := s.lineStart, lineEnd := s.lineEnd }) :=
  rfl

theorem parseStatementsFrom_synErr (body : List PyNode) :
    ∀ (i : Nat), ∀ s ∈ parseStatementsFrom i body, s.synErrMsg = none := by
  induction body with
  | nil => intro i s hs; simp [parseStatementsFrom] at hs
  | cons n rest ih =>
      intro i s hs
      rcases List.mem_cons.mp hs with rfl | hmem
      · rfl
      · exact ih (i + 1) s hmem

theorem parseStatementsFrom_indices (body : List PyNode) :
    ∀ (i : Nat), (parseStatementsFrom i body).map Stmt.nodeIndex = List.range' i body.length := by
  induction body with
  | nil => intro i; simp [parseStatementsFrom]
  | cons n rest ih =>
      intro i
      simp [parseStatementsFrom, mkStmt, List.range', ih (i + 1)]

theorem filteredStatements_sublist (script : String) (parse : ParseOutcome)
    (lr : Option (Nat × Nat)) :
    (filteredStatements script parse lr).Sublist (parseStatements script parse) := by
  cases lr with
  | none => exact List.Sublist.refl _
  | some p =>
      cases p with
      | mk f t => exact List.filter_sublist _

theorem filteredStatements_synErr (script : String) (body : List PyNode)
    (lr : Option (Nat × Nat)) :
    ∀ s ∈ filteredStatements script (.ok body) lr, s.synErrMsg = none := by
  intro s hs
  exact parseStatementsFrom_synErr body 0 s
    ((filteredStatements_sublist script (.ok body) lr).subset hs)

theorem filterMap_info_eq_map (stmts : List Stmt) (h : ∀ s ∈ stmts, s.synErrMsg = none) :
    stmts.filterMap (fun s =>
        if s.synErrMsg.isSome then none
        else some { nodeIndex := s.nodeIndex, lineStart := s.lineStart,
                    lineEnd := s.lineEnd : ExprInfo }) =
      stmts.map (fun s =>
        { nodeIndex := s.nodeIndex, lineStart := s.lineStart, lineEnd := s.lineEnd : ExprInfo }) := by
  induction stmts with
  | nil => rfl
  | cons s rest ih =>
      have hs : s.synErrMsg = none := h s (List.mem_cons_self s rest)
      simp [List.filterMap_cons, List.map_cons, hs,
        ih (fun u hu => h u (List.mem_cons_of_mem s hu))]

theorem mem_filtered_indices (f t : Nat) (body : List PyNode) :
    ∀ (i j : Nat),
      (j ∈ ((parseStatementsFrom i body).filter
          (fun s => inRange f t s.lineStart s.lineEnd)).map Stmt.nodeIndex) ↔
        ∃ n, i ≤ j ∧ body.get? (j - i) = some n ∧
          inRange f t n.lineno n.endLineno = true := by
  induction body with
  | nil =>
      intro i j
      simp [parseStatementsFrom]
  | cons n rest ih =>
      intro i j
      rw [parseStatementsFrom, List.filter_cons]
      by_cases hP : inRange f t (mkStmt i n).lineStart (mkStmt i n).lineEnd = true
      · rw [if_pos hP]
        simp only [List.map_cons, List.mem_cons, ih (i + 1) j]
        constructor
        · rintro (rfl | ⟨m, hij, hget, hm⟩)
          · exact ⟨n, Nat.le_refl _, by simp, hP⟩
          · refine ⟨m, Nat.le_of_succ_le hij, ?_, hm⟩
            have : j - i = (j - (i + 1)) + 1 := by omega
            rw [this]
            simpa using hget
        · rintro ⟨m, hij, hget, hm⟩
          rcases Nat.eq_or_lt_of_le hij with rfl | hlt
          · left
            rfl
          · right
            refine ⟨m, hlt, ?_, hm⟩
            have : j - i = (j - (i + 1)) + 1 := by omega
            rw [this] at hget
            simpa using hget
      · rw [if_neg hP]
        rw [ih (i + 1) j]
        constructor
        · rintro ⟨m, hij, hget, hm⟩
          refine ⟨m, Nat.le_of_succ_le hij, ?_, hm⟩
          have : j - i = (j - (i + 1)) + 1 := by omega
          rw [this]
          simpa using hget
        · rintro ⟨m, hij, hget, hm⟩
          rcases Nat.eq_or_lt_of_le hij with rfl | hlt
          · exfalso
            apply hP
            have hnm : n = m := by simpa using hget
            show inRange f t n.lineno n.endLineno = true
            rw [hnm]
            exact hm
          · refine ⟨m, hlt, ?_, hm⟩
            have : j - i = (j - (i + 1)) + 1 := by omega
            rw [this] at hget
            simpa using hget

theorem linesMono_get (body : List PyNode) (hmono : linesMono body)
    {i j : Nat} {x y : PyNode} (hij : i ≤ j)
    (hx : body.get? i = some x) (hy : body.get? j = some y) :
    x.lineno ≤ y.lineno ∧ x.endLineno ≤ y.endLineno := by
  rcases Nat.eq_or_lt_of_le hij with rfl | hlt
  · rw [hx] at hy
    cases hy
    exact ⟨Nat.le_refl _, Nat.le_refl _⟩
  · rcases List.get?_eq_some.mp hx with ⟨hi, rfl⟩
    rcases List.get?_eq_some.mp hy with ⟨hj, rfl⟩
    exact List.pairwise_iff_get.mp hmono ⟨i, hi⟩ ⟨j, hj⟩ hlt

end Session

/-- Counterexample for C4: for the script `"1\n2"` with line range
`{from: 2, to: 2}` the single retained unit keeps its original node
index 1, so the unit indices of that call are `[1]` and not
`0, 1, 2, ...` as the claim states. -/
theorem C4_counterexample :
    startedUnits (Session.executeScriptImpl "1\n2" (.ok twoLineBody)
        (fun _ => [.status]) "e" (some (2, 2))) =
      [{ nodeIndex := 1, lineStart := 2, lineEnd := 2 }] ∧
    doneIndices (Session.executeScriptImpl "1\n2" (.ok twoLineBody)
        (fun _ => [.status]) "e" (some (2, 2))) = [1] ∧
    doneIndices (Session.executeScriptImpl "1\n2" (.ok twoLineBody)
        (fun _ => [.status]) "e" (some (2, 2))) ≠
      List.range (startedUnits (Session.executeScriptImpl "1\n2" (.ok twoLineBody)
        (fun _ => [.status]) "e" (some (2, 2)))).length := by
  decide

/-- C4 (amended): within one `executeScript` call the `expression-done`
events are emitted in ascending `nodeIndex` order matching the unit list
of the `execution-started` event; with no line range the indices are
exactly `0, 1, ..., n-1`; with a line range the retained indices form a
gap-free contiguous block of the original node indices — not necessarily
starting at 0 — whenever the parsed statements are in source order. -/
theorem C4_unit_result_ordering (script : String) (body : List Session.PyNode)
    (ke : String → List KernelMsg) (eid : String) (lr : Option (Nat × Nat)) (f t : Nat)
    (hmono : Session.linesMono body) :
    doneIndices (Session.executeScriptImpl script (.ok body) ke eid lr) =
      (startedUnits (Session.executeScriptImpl script (.ok body) ke eid lr)).map
        ExprInfo.nodeIndex ∧
    List.Pairwise (· < ·) (doneIndices (Session.executeScriptImpl script (.ok body) ke eid lr)) ∧
    doneIndices (Session.executeScriptImpl script (.ok body) ke eid none) =
      List.range body.length ∧
    (∀ a b c : Nat,
      a ∈ doneIndices (Session.executeScriptImpl script (.ok body) ke eid (some (f, t))) →
      c ∈ doneIndices (Session.executeScriptImpl script (.ok body) ke eid (some (f, t))) →
      a ≤ b → b ≤ c →
      b ∈ doneIndices (Session.executeScriptImpl script (.ok body) ke eid (some (f, t)))) := by
  have hdone : ∀ lr', doneIndices (Session.executeScriptImpl script (.ok body) ke eid lr') =
      (Session.filteredStatements script (.ok body) lr').map Session.Stmt.nodeIndex :=
    fun lr' => Session.doneIndices_impl script (.ok body) ke eid lr'
  have hsyn : ∀ lr', ∀ s ∈ Session.filteredStatements script (.ok body) lr',
      s.synErrMsg = none := fun lr' => Session.filteredStatements_synErr script body lr'
  refine ⟨?_, ?_, ?_, ?_⟩
  · rw [hdone lr, Session.startedUnits_impl,
      Session.filterMap_info_eq_map _ (hsyn lr), List.map_map]
    rfl
  · rw [hdone lr]
    have hall : List.Pairwise (· < ·)
        ((Session.parseStatements script (.ok body)).map Session.Stmt.nodeIndex) := by
      show List.Pairwise (· < ·)
        ((Session.parseStatementsFrom 0 body).map Session.Stmt.nodeIndex)
      rw [Session.parseStatementsFrom_indices body 0, ← List.range_eq_range']
      exact List.pairwise_lt_range _
    exact List.Pairwise.sublist
      ((Session.filteredStatements_sublist script (.ok body) lr).map _) hall
  · rw [hdone none]
    have hfe : Session.filteredStatements script (.ok body) none =
        Session.parseStatementsFrom 0 body := rfl
    rw [hfe, Session.parseStatementsFrom_indices body 0]
    exact (List.range_eq_range' _).symm
  · intro a b c ha hc hab hbc
    have hfe : Session.filteredStatements script (.ok body) (some (f, t)) =
        (Session.parseStatementsFrom 0 body).filter
          (fun s => inRange f t s.lineStart s.lineEnd) := rfl
    rw [hdone (some (f, t)), hfe] at ha hc ⊢
    obtain ⟨na, -, hga, hPa⟩ := (Session.mem_filtered_indices f t body 0 a).mp ha
    obtain ⟨nc, -, hgc, hPc⟩ := (Session.mem_filtered_indices f t body 0 c).mp hc
    simp only [Nat.sub_zero] at hga hgc
    have hclen : c < body.length := (List.get?_eq_some.mp hgc).1
    have hblen : b < body.length := Nat.lt_of_le_of_lt hbc hclen
    obtain ⟨nb, hgb⟩ : ∃ nb, body.get? b = some nb :=
      ⟨body.get ⟨b, hblen⟩, List.get?_eq_get hblen⟩
    have h1 := Session.linesMono_get body hmono hab hga hgb
    have h2 := Session.linesMono_get body hmono hbc hgb hgc
    refine (Session.mem_filtered_indices f t body 0 b).mpr
      ⟨nb, Nat.zero_le _, by simpa using hgb, ?_⟩
    rw [Session.inRange_iff]
    have hPa' := (Session.inRange_iff f t na.lineno na.endLineno).mp hPa
    have hPc' := (Session.inRange_iff f t nc.lineno nc.endLineno).mp hPc
    exact ⟨Nat.le_trans hPa'.1 h1.2, Nat.le_trans h2.1 hPc'.2⟩

/-- Witness for C4 (amended): the two-line script run without a line
range yields indices `[0, 1]`, and index 1 is retained under the range
`{from: 2, to: 2}`. -/
theorem C4_unit_result_ordering_witness :
    doneIndices (Session.executeScriptImpl "1\n2" (.ok twoLineBody)
        (fun _ => [.status]) "e" none) = List.range twoLineBody.length ∧
    (1 : Nat) ∈ doneIndices (Session.executeScriptImpl "1\n2" (.ok twoLineBody)
        (fun _ => [.status]) "e" (some (2, 2))) :=
  have h := C4_unit_result_ordering "1\n2" twoLineBody (fun _ => [.status]) "e"
    (some (2, 2)) 2 2 (by unfold Session.linesMono; decide)
  ⟨h.2.2.1, h.2.2.2 1 1 1 (by decide) (by decide) (by decide) (by decide)⟩

/-- Counterexample for C5: a unit whose kernel stream carries two
consecutive stdout messages yields two stdout `OutputItem`s through
`Session._process_kernel_message` — the `Session` engine performs no
coalescing — while `IPythonExecutor._execute_code` coalesces them into
one. -/
theorem C5_counterexample :
    Session.executeScriptImpl "p" (.ok [⟨1, 1, false, "p", none⟩]) twoPrintOracle "e" none =
      [.started "e" [{ nodeIndex := 0, lineStart := 1, lineEnd := 1 }],
       .exprDone "e" 0 1 1
         [{ type := "stdout", content := "a\n" }, { type := "stdout", content := "b\n" }] false,
       .complete "e"] ∧
    IPythonExecutor.executeCode twoPrintOracle "p" =
      [{ type := "stdout", content := "a\nb\n" }] := by
  decide

/-- C5 (amended): in `IPythonExecutor._execute_code`, consecutive stream
messages with the same name are coalesced into one `OutputItem` whose
content is the concatenation of their texts — processing two consecutive
same-name stream messages equals processing one merged stream message,
and a unit producing exactly two stdout messages yields exactly one
stdout item.  The `Session` path (`_process_kernel_message`) performs no
coalescing: it yields one `OutputItem` per stream message. -/
theorem C5_stream_coalescing (out : List OutputItem) (n t1 t2 c : String) :
    IPythonExecutor.processMsg (IPythonExecutor.processMsg out (.stream n t1)) (.stream n t2) =
      IPythonExecutor.processMsg out (.stream n (t1 ++ t2)) ∧
    IPythonExecutor.executeCode (fun _ => [.stream n t1, .stream n t2]) c =
      [{ type := n, content := t1 ++ t2 }] ∧
    [KernelMsg.stream n t1, KernelMsg.stream n t2].filterMap Session.processKernelMessage =
      [{ type := n, content := t1 }, { type := n, content := t2 }] := by
  refine ⟨?_, ?_, ?_⟩
  · rcases List.eq_nil_or_concat out with rfl | ⟨L, b, rfl⟩
    · simp [IPythonExecutor.processMsg, String.append_assoc]
    · rw [List.concat_eq_append]
      by_cases hb : b.type == n
      · simp [IPythonExecutor.processMsg, List.getLast?_concat, List.dropLast_concat, hb,
          String.append_assoc]
      · have hbn : ¬ b.type = n := by simpa using hb
        simp [IPythonExecutor.processMsg, List.getLast?_concat, List.dropLast_concat, hb, hbn,
          String.append_assoc]
  · simp [IPythonExecutor.executeCode, IPythonExecutor.processMsg]
  · simp [Session.processKernelMessage]

theorem ipy_mime_types (data : List (String × String)) (md : MimeMeta) :
    (IPythonExecutor.processMimeData data md).map OutputItem.type =
      (specMimeChoiceWithMarkdown data).toList := by
  unfold IPythonExecutor.processMimeData specMimeChoiceWithMarkdown
  cases data.find? (fun kv => strStartsWith kv.1 "image/") with
  | some kv => simp
  | none =>
    cases lookupKey data "text/html" with
    | some v => simp
    | none =>
      cases lookupKey data "text/markdown" with
      | some v => simp
      | none =>
        cases lookupKey data "application/json" with
        | some v => simp
        | none =>
          cases lookupKey data "text/plain" with
          | some v => simp
          | none => simp

theorem ipy_mime_length (data : List (String × String)) (md : MimeMeta) :
    (IPythonExecutor.processMimeData data md).length ≤ 1 := by
  unfold IPythonExecutor.processMimeData
  cases data.find? (fun kv => strStartsWith kv.1 "image/") with
  | some kv => simp
  | none =>
    cases lookupKey data "text/html" with
    | some v => simp
    | none =>
      cases lookupKey data "text/markdown" with
      | some v => simp
      | none =>
        cases lookupKey data "application/json" with
        | some v => simp
        | none =>
          cases lookupKey data "text/plain" with
          | some v => simp
          | none => simp

theorem sess_mime_types (data : List (String × String)) :
    (Session.processMimeData data).map OutputItem.type = specMimeChoiceNoMarkdown data := by
  unfold Session.processMimeData specMimeChoiceNoMarkdown
  cases data.find? (fun kv => strStartsWith kv.1 "image/") with
  | some kv => simp
  | none =>
    cases lookupKey data "text/html" with
    | some v => simp
    | none =>
      cases lookupKey data "application/json" with
      | some v => simp
      | none =>
        cases lookupKey data "text/plain" with
        | some v => simp
        | none => simp

/-- Counterexample for C6: a bundle carrying both `text/markdown` and
`text/plain` goes through `Session._process_mime_data` as a `text/plain`
item — the markdown entry never wins there, against the claimed priority
`markdown > json > plain`. -/
theorem C6_counterexample :
    Session.processMimeData [("text/markdown", "m"), ("text/plain", "p")] =
      some { type := "text/plain", content := "p" } ∧
    (Session.processMimeData [("text/markdown", "m"), ("text/plain", "p")]).map
      OutputItem.type ≠ some "text/markdown" := by
  decide

/-- C6 (amended): `IPythonExecutor._process_mime_data` selects the output
item type by the fixed priority rule image > html > markdown > json >
plain text, and produces at most one item per bundle;
`Session._process_mime_data` omits the markdown rank and selects by
image > html > json > plain text, so a `text/markdown` entry is never
chosen on that path. -/
theorem C6_mime_priority (data : List (String × String)) (md : MimeMeta) :
    (IPythonExecutor.processMimeData data md).map OutputItem.type =
      (specMimeChoiceWithMarkdown data).toList ∧
    (IPythonExecutor.processMimeData data md).length ≤ 1 ∧
    (Session.processMimeData data).map OutputItem.type = specMimeChoiceNoMarkdown data :=
  ⟨ipy_mime_types data md, ipy_mime_length data md, sess_mime_types data⟩

/-- Counterexample for C7: when `ast.parse` fails at line 1 but the call
carries the line range `{from: 2, to: 2}`, the `Session` engine filters
the error pseudo-statement out and emits no `UnitResult` at all — only
`Started([])` and `Complete`. -/
theorem C7_counterexample :
    Session.executeScriptImpl "(" (.err { lineno := some 1, msg := "bad line" })
        (fun _ => [.status]) "e" (some (2, 2)) =
      [.started "e" [], .complete "e"] ∧
    doneIndices (Session.executeScriptImpl "(" (.err { lineno := some 1, msg := "bad line" })
        (fun _ => [.status]) "e" (some (2, 2))) = [] := by
  decide

/-- C7 (amended): when the splitter fails with a `SyntaxError`,
`IPythonExecutor.execute_script` always reports exactly one `UnitResult`
carrying an error item at the failing line (`e.lineno`, or line 1 when
absent) and sends no code to the kernel; the `Session` engine does the
same when no line range is given or when the range covers the error line,
but a range that excludes the error line filters the error
pseudo-statement out, so no `UnitResult` is emitted (see the
counterexample). -/
theorem C7_parse_error (script : String) (eS : Session.SynErr)
    (eI : IPythonExecutor.SynErr) (ke : String → List KernelMsg) (eid : String)
    (lr : Option (Nat × Nat)) (f t : Nat)
    (hcov1 : f ≤ eS.lineno.getD 1) (hcov2 : eS.lineno.getD 1 ≤ t) :
    IPythonExecutor.executeScript (.err eI) ke lr =
      [.expressions [(eI.lineno.getD 1, eI.lineno.getD 1)],
       .result (eI.lineno.getD 1) (eI.lineno.getD 1)
         [{ type := "error", content := eI.tb }] false] ∧
    IPythonExecutor.scriptCalls (.err eI) ke lr = [] ∧
    Session.executeScriptImpl script (.err eS) ke eid none =
      [.started eid [],
       .exprDone eid 0 (eS.lineno.getD 1) (eS.lineno.getD 1)
         [{ type := "error", content := eS.msg }] false,
       .complete eid] ∧
    Session.scriptKernelCalls script (.err eS) none = [] ∧
    Session.executeScriptImpl script (.err eS) ke eid (some (f, t)) =
      [.started eid [],
       .exprDone eid 0 (eS.lineno.getD 1) (eS.lineno.getD 1)
         [{ type := "error", content := eS.msg }] false,
       .complete eid] ∧
    Session.scriptKernelCalls script (.err eS) (some (f, t)) = [] := by
  have hR : inRange f t (eS.lineno.getD 1) (eS.lineno.getD 1) = true :=
    (Session.inRange_iff f t _ _).mpr ⟨hcov1, hcov2⟩
  refine ⟨rfl, rfl, ?_, ?_, ?_, ?_⟩
  · simp [Session.executeScriptImpl, Session.implInit, Session.startedEvent,
      Session.filteredStatements, Session.parseStatements, Session.stmtEvent]
  · simp [Session.scriptKernelCalls, Session.filteredStatements, Session.parseStatements,
      Session.stmtKernelCalls]
  · simp [Session.executeScriptImpl, Session.implInit, Session.startedEvent,
      Session.filteredStatements, Session.parseStatements, Session.stmtEvent, hR]
  · simp [Session.scriptKernelCalls, Session.filteredStatements, Session.parseStatements,
      Session.stmtKernelCalls, hR]

/-- Witness for C7 (amended): a syntax error at line 1 with the covering
range `{from: 1, to: 3}`. -/
theorem C7_parse_error_witness :
    Session.executeScriptImpl "(" (.err { lineno := some 1, msg := "bad line" })
        (fun _ => [.status]) "e" (some (1, 3)) =
      [.started "e" [],
       .exprDone "e" 0 1 1 [{ type := "error", content := "bad line" }] false,
       .complete "e"] ∧
    Session.scriptKernelCalls "(" (.err { lineno := some 1, msg := "bad line" })
      (some (1, 3)) = [] :=
  have h := C7_parse_error "(" { lineno := some 1, msg := "bad line" }
    { lineno := some 1, tb := "tb" } (fun _ => [.status]) "e" none 1 3
    (by decide) (by decide)
  ⟨h.2.2.2.2.1, h.2.2.2.2.2⟩

/-- Counterexample for C8: the markdown-literal unit of the script
`x = 1; "md";` (a top-level string-constant expression whose source slice
does not literal-evaluate, because the assignment shares its line) does
reach the kernel: `IPythonExecutor.execute_script` sends its source as an
`ExecuteCode` and renders no markdown item. -/
theorem C8_counterexample :
    mdFallback.isMarkdownCell = true ∧
    IPythonExecutor.unitCalls mdFallback = ["x = 1; \"md\";"] ∧
    IPythonExecutor.unitOutput silentOracle mdFallback = [] ∧
    IPythonExecutor.scriptCalls (.ok mdFallbackBody) silentOracle none =
      ["x = 1; \"md\";"] := by
  decide

/-- C8 (amended): a markdown-literal unit whose source slice
literal-evaluates successfully bypasses the kernel in both engines: its
string value, whitespace-stripped, becomes the single `text/markdown`
output item of its `UnitResult` and no code is sent to the kernel for
that unit.  When `ast.literal_eval` fails on the slice,
`IPythonExecutor` falls back to executing the source in the kernel (see
the counterexample), while `Session` reports an empty output list without
calling the kernel. -/
theorem C8_markdown_bypass (ke : String → List KernelMsg) (eid : String)
    (s : IPythonExecutor.Stmt) (u : Session.Stmt) (v w : String)
    (hs1 : s.isMarkdownCell = true) (hs2 : s.literalEval = some v)
    (hu0 : u.synErrMsg = none) (hu1 : u.isMarkdown = true) (hu2 : u.literalEval = some w) :
    IPythonExecutor.unitOutput ke s = [{ type := "text/markdown", content := strTrim v }] ∧
    IPythonExecutor.unitCalls s = [] ∧
    Session.stmtEvent ke eid u =
      .exprDone eid u.nodeIndex u.lineStart u.lineEnd
        [{ type := "text/markdown", content := strTrim w }] false ∧
    Session.stmtKernelCalls u = [] := by
  refine ⟨?_, ?_, ?_, ?_⟩
  · simp [IPythonExecutor.unitOutput, hs1, hs2]
  · simp [IPythonExecutor.unitCalls, hs1, hs2]
  · simp [Session.stmtEvent, Session.markdownOutput, hu0, hu1, hu2]
  · simp [Session.stmtKernelCalls, hu0, hu1]

/-- Witness for C8 (amended): a markdown-literal unit on its own line,
whose literal value is ` md `. -/
theorem C8_markdown_bypass_witness :
    IPythonExecutor.unitOutput silentOracle
        { lineStart := 1, lineEnd := 1, source := "\" md \"", isMarkdownCell := true,
          isFStringMarkdown := false, literalEval := some " md " } =
      [{ type := "text/markdown", content := strTrim " md " }] ∧
    IPythonExecutor.unitCalls
        { lineStart := 1, lineEnd := 1, source := "\" md \"", isMarkdownCell := true,
          isFStringMarkdown := false, literalEval := some " md " } = [] ∧
    Session.stmtEvent silentOracle "e"
        { nodeIndex := 0, lineStart := 1, lineEnd := 1, code := "\" md \"",
          isMarkdown := true, synErrMsg := none, literalEval := some " md " } =
      .exprDone "e" 0 1 1 [{ type := "text/markdown", content := strTrim " md " }] false ∧
    Session.stmtKernelCalls
        { nodeIndex := 0, lineStart := 1, lineEnd := 1, code := "\" md \"",
          isMarkdown := true, synErrMsg := none, literalEval := some " md " } = [] :=
  C8_markdown_bypass silentOracle "e"
    { lineStart := 1, lineEnd := 1, source := "\" md \"", isMarkdownCell := true,
      isFStringMarkdown := false, literalEval := some " md " }
    { nodeIndex := 0, lineStart := 1, lineEnd := 1, code := "\" md \"",
      isMarkdown := true, synErrMsg := none, literalEval := some " md " }
    " md " " md " rfl rfl rfl rfl rfl

/-- C9: with a line range `{from, to}`, the units reported in the
`execution-started` event and executed are exactly those whose line
interval intersects the range — a unit is excluded if and only if
`lineEnd < from` or `lineStart > to` — the retained units keep their
original relative order and line numbers (the kept list is a sublist of
the full list, made of its own elements), and with no line range all
units are retained.  This holds in the `Session` engine and in
`IPythonExecutor`. -/
theorem C9_line_range_filter (script : String) (body : List Session.PyNode)
    (ibody : List IPythonExecutor.PyAstNode) (ke : String → List KernelMsg)
    (eid : String) (f t : Nat) (s : Session.Stmt) (u : IPythonExecutor.Stmt)
    (hs : s ∈ Session.parseStatements script (.ok body))
    (hu : u ∈ IPythonExecutor.parseScript ibody) :
    (s ∈ Session.filteredStatements script (.ok body) (some (f, t)) ↔
      ¬(s.lineEnd < f ∨ s.lineStart > t)) ∧
    (Session.filteredStatements script (.ok body) (some (f, t))).Sublist
      (Session.parseStatements script (.ok body)) ∧
    Session.filteredStatements script (.ok body) none =
      Session.parseStatements script (.ok body) ∧
    startedUnits (Session.executeScriptImpl script (.ok body) ke eid (some (f, t))) =
      (Session.filteredStatements script (.ok body) (some (f, t))).map
        (fun s => { nodeIndex := s.nodeIndex, lineStart := s.lineStart,
                    lineEnd := s.lineEnd }) ∧
    (u ∈ IPythonExecutor.filteredStatements ibody (some (f, t)) ↔
      ¬(u.lineEnd < f ∨ u.lineStart > t)) ∧
    IPythonExecutor.filteredStatements ibody none = IPythonExecutor.parseScript ibody ∧
    (IPythonExecutor.executeScript (.ok ibody) ke (some (f, t))).head? =
      some (.expressions ((IPythonExecutor.filteredStatements ibody (some (f, t))).map
        (fun u => (u.lineStart, u.lineEnd)))) := by
  refine ⟨?_, Session.filteredStatements_sublist script (.ok body) (some (f, t)), rfl,
    ?_, ?_, rfl, rfl⟩
  · have hfe : Session.filteredStatements script (.ok body) (some (f, t)) =
        (Session.parseStatements script (.ok body)).filter
          (fun s => inRange f t s.lineStart s.lineEnd) := rfl
    rw [hfe, List.mem_filter, Session.inRange_iff]
    constructor
    · rintro ⟨-, h1, h2⟩ h
      omega
    · intro h
      exact ⟨hs, by omega⟩
  · rw [Session.startedUnits_impl, Session.filterMap_info_eq_map _
      (Session.filteredStatements_synErr script body (some (f, t)))]
  · have hfe : IPythonExecutor.filteredStatements ibody (some (f, t)) =
        (IPythonExecutor.parseScript ibody).filter
          (fun u => inRange f t u.lineStart u.lineEnd) := rfl
    rw [hfe, List.mem_filter, Session.inRange_iff]
    constructor
    · rintro ⟨-, h1, h2⟩ h
      omega
    · intro h
      exact ⟨hu, by omega⟩

/-- Witness for C9: the three-line script of the halt scenario with range
`{from: 2, to: 3}`, in both engines. -/
theorem C9_line_range_filter_witness :
    ((Session.parseStatements "1\n1/0\n2" (.ok haltSessBody)).get? 1).getD
        { nodeIndex := 0, lineStart := 0, lineEnd := 0, code := "", isMarkdown := false,
          synErrMsg := none, literalEval := none } ∈
      Session.filteredStatements "1\n1/0\n2" (.ok haltSessBody) (some (2, 3)) ∧
    Session.filteredStatements "1\n1/0\n2" (.ok haltSessBody) none =
      Session.parseStatements "1\n1/0\n2" (.ok haltSessBody) ∧
    ((IPythonExecutor.parseScript haltBody).get? 0).getD
        { lineStart := 0, lineEnd := 0, source := "", isMarkdownCell := false,
          isFStringMarkdown := false, literalEval := none } ∈
      IPythonExecutor.filteredStatements haltBody (some (1, 1)) := by
  have h1 := C9_line_range_filter "1\n1/0\n2" haltSessBody haltBody (fun _ => [.status])
    "e" 2 3
    (((Session.parseStatements "1\n1/0\n2" (.ok haltSessBody)).get? 1).getD
      { nodeIndex := 0, lineStart := 0, lineEnd := 0, code := "", isMarkdown := false,
        synErrMsg := none, literalEval := none })
    (((IPythonExecutor.parseScript haltBody).get? 0).getD
      { lineStart := 0, lineEnd := 0, source := "", isMarkdownCell := false,
        isFStringMarkdown := false, literalEval := none })
    (by decide) (by decide)
  have h2 := C9_line_range_filter "1\n1/0\n2" haltSessBody haltBody (fun _ => [.status])
    "e" 1 1
    (((Session.parseStatements "1\n1/0\n2" (.ok haltSessBody)).get? 1).getD
      { nodeIndex := 0, lineStart := 0, lineEnd := 0, code := "", isMarkdown := false,
        synErrMsg := none, literalEval := none })
    (((IPythonExecutor.parseScript haltBody).get? 0).getD
      { lineStart := 0, lineEnd := 0, source := "", isMarkdownCell := false,
        isFStringMarkdown := false, literalEval := none })
    (by decide) (by decide)
  exact ⟨h1.1.mpr (by decide), h1.2.2.1, h2.2.2.2.2.1.mpr (by decide)⟩

/-- Counterexample for C10: the markdown-literal unit of `x = 1; "md";`
falls back to kernel execution in `IPythonExecutor`, collects no output,
and its `UnitResult` reports `isInvisible = true` — a markdown-literal
unit with an empty output list does not always report
`isInvisible = false`. -/
theorem C10_counterexample :
    mdFallback.isMarkdownCell = true ∧
    IPythonExecutor.execUnits silentOracle [mdFallback] = [.result 1 1 [] true] := by
  decide

/-- C10 (amended): in the `Session` engine, a kernel-executed unit
reports `isInvisible` exactly when its collected output list is empty,
while syntax-error and markdown-literal units always report
`isInvisible = false`; `IPythonExecutor` instead computes
`isInvisible = (output is empty)` uniformly for every unit, so a
markdown-literal unit that successfully literal-evaluates reports
`false` (its output has one item), but one that fell back to kernel
execution and produced no output reports `true` (see the
counterexample). -/
theorem C10_invisible_flag (ke : String → List KernelMsg) (eid : String)
    (s : Session.Stmt) (stmts : List IPythonExecutor.Stmt)
    (ls le : Nat) (out : List OutputItem) (inv : Bool)
    (u : IPythonExecutor.Stmt) (v : String) :
    (s.synErrMsg = none → s.isMarkdown = false →
      Session.stmtEvent ke eid s =
        .exprDone eid s.nodeIndex s.lineStart s.lineEnd (Session.kernelOutput ke s)
          (Session.kernelOutput ke s).isEmpty) ∧
    (∀ m, s.synErrMsg = some m →
      Session.stmtEvent ke eid s =
        .exprDone eid s.nodeIndex s.lineStart s.lineEnd
          [{ type := "error", content := m }] false) ∧
    (s.synErrMsg = none → s.isMarkdown = true →
      Session.stmtEvent ke eid s =
        .exprDone eid s.nodeIndex s.lineStart s.lineEnd (Session.markdownOutput s) false) ∧
    (IPythonExecutor.IEvent.result ls le out inv ∈ IPythonExecutor.execUnits ke stmts →
      inv = out.isEmpty) ∧
    (u.isMarkdownCell = true → u.literalEval = some v →
      (IPythonExecutor.unitOutput ke u).isEmpty = false) := by
  refine ⟨?_, ?_, ?_, ?_, ?_⟩
  · intro h0 h1
    simp [Session.stmtEvent, h0, h1]
  · intro m hm
    simp [Session.stmtEvent, hm]
  · intro h0 h1
    simp [Session.stmtEvent, h0, h1]
  · intro hmem
    induction stmts with
    | nil => simp [IPythonExecutor.execUnits] at hmem
    | cons s' rest ih =>
        rw [IPythonExecutor.execUnits] at hmem
        by_cases he : IPythonExecutor.hasError (IPythonExecutor.unitOutput ke s') = true
        · rw [if_pos he] at hmem
          have heq := List.mem_singleton.mp hmem
          simp [IPythonExecutor.resultEvent] at heq
          obtain ⟨-, -, h3, h4⟩ := heq
          subst h3
          exact h4
        · rw [if_neg he] at hmem
          rcases List.mem_cons.mp hmem with heq | hmem'
          · simp [IPythonExecutor.resultEvent] at heq
            obtain ⟨-, -, h3, h4⟩ := heq
            subst h3
            exact h4
          · exact ih hmem'
  · intro h0 h1
    simp [IPythonExecutor.unitOutput, h0, h1]

/-- Witness for C10 (amended): a concrete kernel-executed unit, the
invisible flag of the markdown-fallback result of the counterexample
scenario, and a successfully evaluated markdown unit. -/
theorem C10_invisible_flag_witness :
    Session.stmtEvent silentOracle "e"
        { nodeIndex := 0, lineStart := 1, lineEnd := 1, code := "x = 1",
          isMarkdown := false, synErrMsg := none, literalEval := none } =
      .exprDone "e" 0 1 1
        (Session.kernelOutput silentOracle
          { nodeIndex := 0, lineStart := 1, lineEnd := 1, code := "x = 1",
            isMarkdown := false, synErrMsg := none, literalEval := none })
        (Session.kernelOutput silentOracle
          { nodeIndex := 0, lineStart := 1, lineEnd := 1, code := "x = 1",
            isMarkdown := false, synErrMsg := none, literalEval := none }).isEmpty ∧
    (true : Bool) = ([] : List OutputItem).isEmpty ∧
    (IPythonExecutor.unitOutput silentOracle
      { lineStart := 1, lineEnd := 1, source := "\"v\"", isMarkdownCell := true,
        isFStringMarkdown := false, literalEval := some "v" }).isEmpty = false :=
  have h := C10_invisible_flag silentOracle "e"
    { nodeIndex := 0, lineStart := 1, lineEnd := 1, code := "x = 1",
      isMarkdown := false, synErrMsg := none, literalEval := none }
    [mdFallback] 1 1 [] true
    { lineStart := 1, lineEnd := 1, source := "\"v\"", isMarkdownCell := true,
      isFStringMarkdown := false, literalEval := some "v" } "v"
  ⟨h.1 rfl rfl, h.2.2.2.1 (by decide), h.2.2.2.2 rfl rfl⟩


